import Mathlib

/-!
Verification of the Tangents Steiner-Parker multimode filter (tangents.cpp)
against its natural-language specification.

The C++ source operates on IEEE `float`; this development embeds the
arithmetic shallowly over the real numbers `ℝ` (exact arithmetic), over `ℚ`
for the purely rational randomizer/gain paths, and over `ℕ` for the 32-bit
xorshift state (with explicit `% 2 ^ 32` where the C code wraps).  Non-finite
float values (NaN, ±Infinity), which in the source can only be observed by
`sanitize`, are modelled by the explicit extended type `FVal`.
-/

namespace Tangents

/-- Embedding of `fastTanh` (tangents.cpp lines 214-222): rational tanh
approximation, clamped to ±1 for |x| > 3. -/
noncomputable def fastTanh (x : ℝ) : ℝ :=
  if x > 3 then 1
  else if x < -3 then -1
  else
    let x2 := x * x
    x * (27 + x2) / (27 + 9 * x2)

/-- Embedding of `diodeClip` (tangents.cpp lines 228-235): asymmetric
diode-style soft clipping. -/
noncomputable def diodeClip (x : ℝ) : ℝ :=
  if x > 0 then 1 - Real.exp (-x)
  else -0.5 * (1 - Real.exp (2 * x))

/-- Embedding of `aggressiveSat` (tangents.cpp lines 241-251): tanh of the
doubled input followed by fold-back beyond magnitude 0.8. -/
noncomputable def aggressiveSat (x : ℝ) : ℝ :=
  let y := fastTanh (x * 2)
  if |y| > 0.8 then
    let excess := |y| - 0.8
    (if y > 0 then 1 else -1) * (0.8 - excess * 0.5)
  else y

/-- Embedding of `softClamp` (tangents.cpp lines 276-281): hard clamp to
±limit. -/
noncomputable def softClamp (x limit : ℝ) : ℝ :=
  if x > limit then limit
  else if x < -limit then -limit
  else x

/-- Float values as observed by `sanitize`: a finite real, NaN, or ±Infinity.
NaN fails `x == x`; +Infinity compares greater than `1e10`; -Infinity
compares less than `-1e10`. -/
inductive FVal
  | fin (x : ℝ)
  | nan
  | inf
  | neginf

/-- Embedding of `sanitize` (tangents.cpp lines 264-270): returns 0 if the
input is NaN, infinite, or of magnitude above 1e10; otherwise the input.
In C the test is `x != x || x > 1e10f || x < -1e10f`: NaN fails `x == x`,
+Infinity satisfies `x > 1e10f`, -Infinity satisfies `x < -1e10f`. -/
noncomputable def sanitize : FVal → FVal
  | .fin x => if x > 1e10 ∨ x < -1e10 then .fin 0 else .fin x
  | .nan => .fin 0
  | .inf => .fin 0
  | .neginf => .fin 0

/-- Restriction of `sanitize` to finite values, used inside the all-real
embedding of the `step` audio path (where no non-finite value can arise in
exact real arithmetic). -/
noncomputable def sanitizeR (x : ℝ) : ℝ :=
  if x > 1e10 ∨ x < -1e10 then 0 else x

/-- Embedding of the xorshift state update inside `fastRandom`
(tangents.cpp lines 287-293).  The three C statements
`state ^= state << 13; state ^= state >> 17; state ^= state << 5;` operate
on `uint32_t`, so each left shift wraps modulo `2 ^ 32`. -/
def xorshiftStep (s : ℕ) : ℕ :=
  let a := s ^^^ ((s <<< 13) % 2 ^ 32)
  let b := a ^^^ (a >>> 17)
  b ^^^ ((b <<< 5) % 2 ^ 32)

/-- Embedding of `fastRandom` (tangents.cpp lines 287-293): advances the
xorshift state and returns `(state & 0x7FFFFFFF) / 0x7FFFFFFF` together with
the new state.  The C function mutates `state` by reference; here it returns
the pair. -/
def fastRandom (state : ℕ) : ℚ × ℕ :=
  let s := xorshiftStep state
  (((s &&& 0x7FFFFFFF : ℕ) : ℚ) / (0x7FFFFFFF : ℚ), s)

/-- Embedding of `processAGR` (tangents.cpp lines 306-329): three-zone
Attenu-Gain-Randomizer.  Returns the gain and the (possibly advanced)
random state. -/
def processAGR (agrValue : ℤ) (randState : ℕ) : ℚ × ℕ :=
  if agrValue ≤ 25 then
    let randomMix : ℚ := 1 - (agrValue : ℚ) / 25
    let baseGain : ℚ := (agrValue : ℚ) / 50
    let r := fastRandom randState
    (baseGain + r.1 * randomMix, r.2)
  else if agrValue ≤ 50 then
    let t : ℚ := ((agrValue : ℚ) - 25) / 25
    (0.5 + t * 0.5, randState)
  else
    let t : ℚ := ((agrValue : ℚ) - 50) / 50
    (1 + t * 3, randState)

/-- The coefficient triple written by `calculateFilterCoeffs` into the DTC
state. -/
structure Coeffs where
  g : ℝ
  k : ℝ
  gInv : ℝ

/-- Embedding of `calculateFilterCoeffs` (tangents.cpp lines 335-353):
clamp cutoff, pre-warp `g = tan(π·fc/fs)`, damping `k = 2 - 1.9·res`,
normalization `gInv = 1/(1+g(g+k))`. -/
noncomputable def calculateFilterCoeffs (cutoff resonance sampleRate : ℝ) : Coeffs :=
  let c1 := if cutoff < 20 then 20 else cutoff
  let c2 := if c1 > sampleRate * 0.45 then sampleRate * 0.45 else c1
  let g := Real.tan (Real.pi * c2 / sampleRate)
  let k := 2 - resonance * 1.9
  ⟨g, k, 1 / (1 + g * (g + k))⟩

/-- Embedding of the performance-critical filter state
`_tangentsAlgorithm_DTC` (tangents.cpp lines 41-67). -/
structure DTC where
  lp : ℝ
  bp : ℝ
  hp : ℝ
  g : ℝ
  k : ℝ
  gInv : ℝ
  cutoffSmooth : ℝ
  resonanceSmooth : ℝ
  driveSmooth : ℝ
  agrSmooth : ℝ
  cvCutoffAmtSmooth : ℝ
  cvResAmtSmooth : ℝ
  randState : ℕ
  inputLevel : ℝ
  outputLevel : ℝ

/-- The raw integer parameter values read by `step` from `v[]`
(tangents.cpp lines 435-445). -/
structure Params where
  cutoffRaw : ℤ
  resonanceRaw : ℤ
  mode : ℤ
  model : ℤ
  cvCutoffAmtRaw : ℤ
  cvResAmtRaw : ℤ
  agrRaw : ℤ
  driveRaw : ℤ
  osParam : ℤ

/-- C truncation of a float toward zero, used for `(int)dtc->agrSmooth`
(tangents.cpp line 497). -/
noncomputable def truncToInt (x : ℝ) : ℤ :=
  if 0 ≤ x then ⌊x⌋ else ⌈x⌉

/-- The model-selected pre-filter saturation (tangents.cpp lines 514-530):
the `switch (model)` computing `u`, whose `default` branch is the
YU-equivalent `fastTanh(input)`. -/
noncomputable def inputSat (model : ℤ) (resAmt input : ℝ) : ℝ :=
  if model = 0 then fastTanh (input * (1 + resAmt))
  else if model = 1 then diodeClip (input * (1 + resAmt * 0.5))
  else if model = 2 then aggressiveSat (input * (1 + resAmt * 2))
  else fastTanh input

/-- The model-selected output-stage saturation (tangents.cpp lines 577-590),
whose `default` branch is again `fastTanh`. -/
noncomputable def outputSat (model : ℤ) (x : ℝ) : ℝ :=
  if model = 0 then fastTanh x
  else if model = 1 then diodeClip x
  else if model = 2 then aggressiveSat x
  else fastTanh x

/-- One iteration of the inner oversampling loop of `step`
(tangents.cpp lines 508-568): nonlinearity, TPT state-variable update,
soft clamp, sanitize, and the mode-selected contribution to the output
accumulator.  The `switch (mode)` has no `default` case, so an unknown mode
contributes nothing.  The accumulated locals are the clamped `lp`/`bp` and
the unclamped `hp`, exactly as in the C locals. -/
noncomputable def osStep (model mode : ℤ) (resAmt input : ℝ) (dtc : DTC) : DTC × ℝ :=
  let u := inputSat model resAmt input
  let hp := (u - dtc.k * dtc.bp - dtc.lp) * dtc.gInv
  let bp := dtc.g * hp + dtc.bp
  let lp := dtc.g * bp + dtc.lp
  let bp2 := softClamp bp 5
  let lp2 := softClamp lp 5
  let dtc' := { dtc with bp := sanitizeR bp2, lp := sanitizeR lp2, hp := sanitizeR hp }
  let contrib :=
    if mode = 0 then lp2
    else if mode = 1 then bp2
    else if mode = 2 then hp
    else if mode = 3 then lp2 - hp
    else 0
  (dtc', contrib)

/-- The inner oversampling loop run `n` times, threading the filter state
and summing the per-iteration output contributions (`output += ...`). -/
noncomputable def osLoop (model mode : ℤ) (resAmt input : ℝ) : ℕ → DTC → DTC × ℝ
  | 0, dtc => (dtc, 0)
  | n + 1, dtc =>
      let r := osStep model mode resAmt input dtc
      let rest := osLoop model mode resAmt input n r.1
      (rest.1, r.2 + rest.2)

/-- Result of one iteration of the per-sample loop of `step`: the updated
state, the conditioned input (whose absolute value feeds the input meter)
and the produced output sample. -/
structure SampleOut where
  dtc : DTC
  input : ℝ
  output : ℝ

/-- One iteration of the per-sample loop of `step`
(tangents.cpp lines 492-601): AGR gain, drive, oversampled filter core,
averaging, sanitize, and the model's output-stage saturation. -/
noncomputable def sampleStep (mode model : ℤ) (oversample : ℕ) (resAmt : ℝ)
    (inSample : ℝ) (dtc : DTC) : SampleOut :=
  let pr := processAGR (truncToInt dtc.agrSmooth) dtc.randState
  let agrGain : ℝ := (pr.1 : ℝ)
  let input := inSample * agrGain * dtc.driveSmooth
  let d0 := { dtc with randState := pr.2 }
  let lr := osLoop model mode resAmt input oversample d0
  let out0 := lr.2 / (oversample : ℝ)
  let out1 := sanitizeR out0
  ⟨lr.1, input, outputSat model out1⟩

/-- The oversampling factor `1 << osParam` (tangents.cpp line 446). -/
def oversampleOf (p : Params) : ℕ := 2 ^ p.osParam.toNat

/-- The block-rate head of `step` (tangents.cpp lines 435-489): parameter
target derivation, exponential smoothing, CV modulation of cutoff and
resonance, and the once-per-block coefficient calculation at the
oversampled rate.  `cvCutoff`/`cvRes` are the first samples of the CV
busses when connected (`cvCutoff[0]`, `cvResonance[0]`), `none` when not. -/
noncomputable def prepareBlock (p : Params) (cvCutoff cvRes : Option ℝ)
    (sampleRate : ℝ) (dtc : DTC) : DTC :=
  let baseCutoff : ℝ := (p.cutoffRaw : ℝ)
  let baseResonance : ℝ := (p.resonanceRaw : ℝ) / 1000
  let cvCutoffAmtTarget : ℝ := (p.cvCutoffAmtRaw : ℝ) / 1000
  let cvResAmtTarget : ℝ := (p.cvResAmtRaw : ℝ) / 1000
  let agrTarget : ℝ := (p.agrRaw : ℝ) / 10
  let driveTarget : ℝ := 1 + (p.driveRaw : ℝ) / 250
  let oversampleRate := sampleRate * (oversampleOf p : ℝ)
  let d1 := { dtc with
    driveSmooth := dtc.driveSmooth + (driveTarget - dtc.driveSmooth) * 0.1,
    agrSmooth := dtc.agrSmooth + (agrTarget - dtc.agrSmooth) * 0.1,
    cvCutoffAmtSmooth := dtc.cvCutoffAmtSmooth + (cvCutoffAmtTarget - dtc.cvCutoffAmtSmooth) * 0.1,
    cvResAmtSmooth := dtc.cvResAmtSmooth + (cvResAmtTarget - dtc.cvResAmtSmooth) * 0.1 }
  let cutoff : ℝ :=
    match cvCutoff with
    | some cv => baseCutoff * (2 : ℝ) ^ (cv * d1.cvCutoffAmtSmooth * 5)
    | none => baseCutoff
  let resonance : ℝ :=
    match cvRes with
    | some cv =>
        let r0 := baseResonance + cv * d1.cvResAmtSmooth * 0.5
        let r1 := if r0 < 0 then 0 else r0
        if r1 > 1 then 1 else r1
    | none => baseResonance
  let d2 := { d1 with
    cutoffSmooth := d1.cutoffSmooth + (cutoff - d1.cutoffSmooth) * 0.1,
    resonanceSmooth := d1.resonanceSmooth + (resonance - d1.resonanceSmooth) * 0.1 }
  let co := calculateFilterCoeffs d2.cutoffSmooth d2.resonanceSmooth oversampleRate
  { d2 with g := co.g, k := co.k, gInv := co.gInv }

/-- Accumulator threaded through the per-sample loop of `step`: filter
state, produced output samples, and the block's peak input/output
magnitudes. -/
structure BlockAcc where
  dtc : DTC
  outs : List ℝ
  maxIn : ℝ
  maxOut : ℝ

/-- The body of the per-sample loop of `step` as a fold step over
`BlockAcc`: process one input sample and update the output list and peak
trackers (`if (absIn > maxIn) maxIn = absIn;` etc.). -/
noncomputable def sampleFold (mode model : ℤ) (oversample : ℕ) (resAmt : ℝ)
    (a : BlockAcc) (x : ℝ) : BlockAcc :=
  let s := sampleStep mode model oversample resAmt x a.dtc
  ⟨s.dtc, a.outs ++ [s.output], max a.maxIn |s.input|, max a.maxOut |s.output|⟩

/-- Embedding of one full `step` call (tangents.cpp lines 412-606): the
block head, the per-sample loop, and the decaying level-meter update.
Returns the final state and the list of produced output samples (the host
then writes or adds each one to the output bus according to the
replace/add flag). -/
noncomputable def stepBlock (p : Params) (cvCutoff cvRes : Option ℝ)
    (sampleRate : ℝ) (inputs : List ℝ) (dtc : DTC) : DTC × List ℝ :=
  let d1 := prepareBlock p cvCutoff cvRes sampleRate dtc
  let resAmt := (2 - d1.k) / 1.9
  let acc := inputs.foldl (sampleFold p.mode p.model (oversampleOf p) resAmt) ⟨d1, [], 0, 0⟩
  ({ acc.dtc with
      inputLevel := acc.dtc.inputLevel * 0.95 + acc.maxIn * 0.05,
      outputLevel := acc.dtc.outputLevel * 0.95 + acc.maxOut * 0.05 },
   acc.outs)

/-- One block of `runBlocks` as a fold step: run `step` once and append the
produced output block. -/
noncomputable def blockFold (p : Params) (cvCutoff cvRes : Option ℝ) (sampleRate : ℝ)
    (a : DTC × List (List ℝ)) (blk : List ℝ) : DTC × List (List ℝ) :=
  let s := stepBlock p cvCutoff cvRes sampleRate blk a.1
  (s.1, a.2 ++ [s.2])

/-- Several consecutive `step` calls with fixed parameters, collecting each
block's produced outputs. -/
noncomputable def runBlocks (p : Params) (cvCutoff cvRes : Option ℝ)
    (sampleRate : ℝ) (blocks : List (List ℝ)) (dtc : DTC) : DTC × List (List ℝ) :=
  blocks.foldl (blockFold p cvCutoff cvRes sampleRate) (dtc, [])

/-- The AGR gain sequence obtained by calling `processAGR` repeatedly with a
fixed control value, threading the random state — the gain stream a run of
the filter draws. -/
def agrRun (agrValue : ℤ) : ℕ → ℕ → List ℚ × ℕ
  | 0, s => ([], s)
  | n + 1, s =>
      let pr := processAGR agrValue s
      let rest := agrRun agrValue n pr.2
      (pr.1 :: rest.1, rest.2)

/-- The random state after `n` xorshift updates starting from the fixed
construction seed `0x12345678` (tangents.cpp line 386). -/
def randStateIter : ℕ → ℕ
  | 0 => 0x12345678
  | n + 1 => xorshiftStep (randStateIter n)

/-- The zero-initialized DTC state produced by `memset(alg->dtc, 0, ...)`
in `construct` (tangents.cpp line 380), before the seed and smoothed
defaults are written. -/
def DTC.zero : DTC :=
  ⟨0, 0, 0, 0, 0, 0, 0, 0, 0, 0, 0, 0, 0, 0, 0⟩

/-! ### Saturation bounds -/

theorem fastTanh_of_gt (x : ℝ) (h : 3 < x) : fastTanh x = 1 := by
  unfold fastTanh
  rw [if_pos h]

theorem fastTanh_of_lt (x : ℝ) (h : x < -3) : fastTanh x = -1 := by
  unfold fastTanh
  rw [if_neg (by linarith), if_pos h]

theorem abs_fastTanh_le_one (x : ℝ) : |fastTanh x| ≤ 1 := by
  unfold fastTanh
  split_ifs with h1 h2
  · simp
  · simp
  · push_neg at h1 h2
    have hd : (0 : ℝ) < 27 + 9 * (x * x) := by nlinarith [sq_nonneg x]
    rw [abs_div, abs_of_pos hd, div_le_one hd, abs_mul,
      abs_of_pos (show (0 : ℝ) < 27 + x * x by nlinarith [sq_nonneg x])]
    have hab : |x| ≤ 3 := abs_le.mpr ⟨h2, h1⟩
    have h0 : (0 : ℝ) ≤ 3 - |x| := by linarith
    have hsq : |x| * |x| = x * x := abs_mul_abs_self x
    nlinarith [mul_nonneg (mul_nonneg h0 h0) h0, abs_nonneg x]

theorem diodeClip_lt_one (x : ℝ) : diodeClip x < 1 := by
  unfold diodeClip
  split_ifs with h
  · have := Real.exp_pos (-x)
    linarith
  · have h1 : Real.exp (2 * x) ≤ 1 := by
      rw [Real.exp_le_one_iff]
      push_neg at h
      linarith
    nlinarith [Real.exp_pos (2 * x)]

theorem neg_half_lt_diodeClip (x : ℝ) : -0.5 < diodeClip x := by
  unfold diodeClip
  split_ifs with h
  · have h1 : Real.exp (-x) < 1 := by
      rw [Real.exp_lt_one_iff]
      linarith
    norm_num
    linarith
  · have := Real.exp_pos (2 * x)
    nlinarith

theorem abs_aggressiveSat_le (x : ℝ) : |aggressiveSat x| ≤ 0.8 := by
  unfold aggressiveSat
  have hy := abs_fastTanh_le_one (x * 2)
  dsimp only
  set y := fastTanh (x * 2) with hydef
  split_ifs with h hpos
  · have hv0 : (0 : ℝ) ≤ 0.8 - (|y| - 0.8) * 0.5 := by linarith
    rw [abs_mul, abs_one, one_mul, abs_of_nonneg hv0]
    linarith
  · have hv0 : (0 : ℝ) ≤ 0.8 - (|y| - 0.8) * 0.5 := by linarith
    rw [abs_mul, abs_neg, abs_one, one_mul, abs_of_nonneg hv0]
    linarith
  · linarith

theorem abs_diodeClip_le_one (x : ℝ) : |diodeClip x| ≤ 1 := by
  have h1 := diodeClip_lt_one x
  have h2 := neg_half_lt_diodeClip x
  rw [abs_le]
  constructor <;> nlinarith

theorem abs_outputSat_le_one (model : ℤ) (x : ℝ) : |outputSat model x| ≤ 1 := by
  unfold outputSat
  split_ifs
  · exact abs_fastTanh_le_one x
  · exact abs_diodeClip_le_one x
  · linarith [abs_aggressiveSat_le x]
  · exact abs_fastTanh_le_one x

/-! ### Zero propagation and field preservation -/

theorem fastTanh_zero : fastTanh 0 = 0 := by
  unfold fastTanh
  norm_num

theorem diodeClip_zero : diodeClip 0 = 0 := by
  unfold diodeClip
  norm_num [Real.exp_zero]

theorem aggressiveSat_zero : aggressiveSat 0 = 0 := by
  unfold aggressiveSat
  rw [zero_mul, fastTanh_zero]
  norm_num

theorem inputSat_zero (model : ℤ) (resAmt : ℝ) : inputSat model resAmt 0 = 0 := by
  unfold inputSat
  split_ifs <;>
    simp [fastTanh_zero, diodeClip_zero, aggressiveSat_zero]

theorem outputSat_zero (model : ℤ) : outputSat model 0 = 0 := by
  unfold outputSat
  split_ifs <;>
    simp [fastTanh_zero, diodeClip_zero, aggressiveSat_zero]

theorem softClamp_zero (limit : ℝ) (h : 0 < limit) : softClamp 0 limit = 0 := by
  unfold softClamp
  rw [if_neg (by linarith), if_neg (by linarith)]

theorem sanitizeR_zero : sanitizeR 0 = 0 := by
  unfold sanitizeR
  norm_num

theorem osStep_preserves (model mode : ℤ) (resAmt input : ℝ) (dtc : DTC) :
    (osStep model mode resAmt input dtc).1.g = dtc.g ∧
    (osStep model mode resAmt input dtc).1.k = dtc.k ∧
    (osStep model mode resAmt input dtc).1.gInv = dtc.gInv ∧
    (osStep model mode resAmt input dtc).1.agrSmooth = dtc.agrSmooth ∧
    (osStep model mode resAmt input dtc).1.driveSmooth = dtc.driveSmooth ∧
    (osStep model mode resAmt input dtc).1.randState = dtc.randState ∧
    (osStep model mode resAmt input dtc).1.inputLevel = dtc.inputLevel ∧
    (osStep model mode resAmt input dtc).1.outputLevel = dtc.outputLevel :=
  ⟨rfl, rfl, rfl, rfl, rfl, rfl, rfl, rfl⟩

theorem osLoop_preserves (model mode : ℤ) (resAmt input : ℝ) (n : ℕ) (dtc : DTC) :
    (osLoop model mode resAmt input n dtc).1.g = dtc.g ∧
    (osLoop model mode resAmt input n dtc).1.k = dtc.k ∧
    (osLoop model mode resAmt input n dtc).1.gInv = dtc.gInv ∧
    (osLoop model mode resAmt input n dtc).1.inputLevel = dtc.inputLevel ∧
    (osLoop model mode resAmt input n dtc).1.outputLevel = dtc.outputLevel := by
  induction n generalizing dtc with
  | zero => exact ⟨rfl, rfl, rfl, rfl, rfl⟩
  | succ m ih =>
      have h := osStep_preserves model mode resAmt input dtc
      have h2 := ih (osStep model mode resAmt input dtc).1
      unfold osLoop
      exact ⟨h2.1.trans h.1, h2.2.1.trans h.2.1, h2.2.2.1.trans h.2.2.1,
        h2.2.2.2.1.trans h.2.2.2.2.2.2.1, h2.2.2.2.2.trans h.2.2.2.2.2.2.2⟩

theorem sampleStep_preserves (mode model : ℤ) (oversample : ℕ) (resAmt x : ℝ) (d : DTC) :
    (sampleStep mode model oversample resAmt x d).dtc.g = d.g ∧
    (sampleStep mode model oversample resAmt x d).dtc.k = d.k ∧
    (sampleStep mode model oversample resAmt x d).dtc.gInv = d.gInv ∧
    (sampleStep mode model oversample resAmt x d).dtc.inputLevel = d.inputLevel ∧
    (sampleStep mode model oversample resAmt x d).dtc.outputLevel = d.outputLevel := by
  unfold sampleStep
  exact osLoop_preserves _ _ _ _ _ _

theorem osStep_zero_state (model mode : ℤ) (resAmt : ℝ) (dtc : DTC)
    (hlp : dtc.lp = 0) (hbp : dtc.bp = 0) (hhp : dtc.hp = 0) :
    (osStep model mode resAmt 0 dtc).1.lp = 0 ∧
    (osStep model mode resAmt 0 dtc).1.bp = 0 ∧
    (osStep model mode resAmt 0 dtc).1.hp = 0 ∧
    (osStep model mode resAmt 0 dtc).2 = 0 := by
  unfold osStep
  rw [inputSat_zero, hlp, hbp]
  dsimp only
  simp only [mul_zero, sub_zero, zero_mul, add_zero]
  rw [softClamp_zero 5 (by norm_num), sanitizeR_zero]
  refine ⟨rfl, rfl, rfl, ?_⟩
  split_ifs <;> norm_num

theorem osLoop_zero_state (model mode : ℤ) (resAmt : ℝ) (n : ℕ) (dtc : DTC)
    (hlp : dtc.lp = 0) (hbp : dtc.bp = 0) (hhp : dtc.hp = 0) :
    (osLoop model mode resAmt 0 n dtc).1.lp = 0 ∧
    (osLoop model mode resAmt 0 n dtc).1.bp = 0 ∧
    (osLoop model mode resAmt 0 n dtc).1.hp = 0 ∧
    (osLoop model mode resAmt 0 n dtc).2 = 0 := by
  induction n generalizing dtc with
  | zero => exact ⟨hlp, hbp, hhp, rfl⟩
  | succ m ih =>
      have h := osStep_zero_state model mode resAmt dtc hlp hbp hhp
      have h2 := ih (osStep model mode resAmt 0 dtc).1 h.1 h.2.1 h.2.2.1
      unfold osLoop
      refine ⟨h2.1, h2.2.1, h2.2.2.1, ?_⟩
      dsimp only
      rw [h.2.2.2, h2.2.2.2]
      ring

theorem sampleStep_zero (mode model : ℤ) (oversample : ℕ) (resAmt : ℝ) (d : DTC)
    (hlp : d.lp = 0) (hbp : d.bp = 0) (hhp : d.hp = 0) :
    (sampleStep mode model oversample resAmt 0 d).dtc.lp = 0 ∧
    (sampleStep mode model oversample resAmt 0 d).dtc.bp = 0 ∧
    (sampleStep mode model oversample resAmt 0 d).dtc.hp = 0 ∧
    (sampleStep mode model oversample resAmt 0 d).input = 0 ∧
    (sampleStep mode model oversample resAmt 0 d).output = 0 := by
  unfold sampleStep
  dsimp only
  rw [zero_mul, zero_mul]
  have h := osLoop_zero_state model mode resAmt oversample
    { d with randState := (processAGR (truncToInt d.agrSmooth) d.randState).2 } hlp hbp hhp
  refine ⟨h.1, h.2.1, h.2.2.1, rfl, ?_⟩
  rw [h.2.2.2, zero_div, sanitizeR_zero, outputSat_zero]

theorem prepareBlock_preserves (p : Params) (cvC cvR : Option ℝ) (rate : ℝ) (dtc : DTC) :
    (prepareBlock p cvC cvR rate dtc).lp = dtc.lp ∧
    (prepareBlock p cvC cvR rate dtc).bp = dtc.bp ∧
    (prepareBlock p cvC cvR rate dtc).hp = dtc.hp ∧
    (prepareBlock p cvC cvR rate dtc).inputLevel = dtc.inputLevel ∧
    (prepareBlock p cvC cvR rate dtc).outputLevel = dtc.outputLevel :=
  ⟨rfl, rfl, rfl, rfl, rfl⟩

theorem sampleFold_zero_inv (mode model : ℤ) (os : ℕ) (resAmt : ℝ) (inputs : List ℝ)
    (hin : ∀ x ∈ inputs, x = 0) (a : BlockAcc)
    (h : a.dtc.lp = 0 ∧ a.dtc.bp = 0 ∧ a.dtc.hp = 0 ∧ a.maxIn = 0 ∧ a.maxOut = 0 ∧
      ∀ o ∈ a.outs, o = 0) :
    ((inputs.foldl (sampleFold mode model os resAmt) a).dtc.lp = 0 ∧
     (inputs.foldl (sampleFold mode model os resAmt) a).dtc.bp = 0 ∧
     (inputs.foldl (sampleFold mode model os resAmt) a).dtc.hp = 0 ∧
     (inputs.foldl (sampleFold mode model os resAmt) a).maxIn = 0 ∧
     (inputs.foldl (sampleFold mode model os resAmt) a).maxOut = 0 ∧
     ∀ o ∈ (inputs.foldl (sampleFold mode model os resAmt) a).outs, o = 0) ∧
    (inputs.foldl (sampleFold mode model os resAmt) a).dtc.inputLevel = a.dtc.inputLevel ∧
    (inputs.foldl (sampleFold mode model os resAmt) a).dtc.outputLevel = a.dtc.outputLevel := by
  induction inputs generalizing a with
  | nil => exact ⟨h, rfl, rfl⟩
  | cons x xs ih =>
      obtain ⟨hlp, hbp, hhp, hmi, hmo, houts⟩ := h
      have hx : x = 0 := hin x (by simp)
      subst hx
      rw [List.foldl_cons]
      have hz := sampleStep_zero mode model os resAmt a.dtc hlp hbp hhp
      have hpres := sampleStep_preserves mode model os resAmt 0 a.dtc
      have hinv : (sampleFold mode model os resAmt a 0).dtc.lp = 0 ∧
          (sampleFold mode model os resAmt a 0).dtc.bp = 0 ∧
          (sampleFold mode model os resAmt a 0).dtc.hp = 0 ∧
          (sampleFold mode model os resAmt a 0).maxIn = 0 ∧
          (sampleFold mode model os resAmt a 0).maxOut = 0 ∧
          ∀ o ∈ (sampleFold mode model os resAmt a 0).outs, o = 0 := by
        unfold sampleFold
        dsimp only
        refine ⟨hz.1, hz.2.1, hz.2.2.1, ?_, ?_, ?_⟩
        · rw [hmi, hz.2.2.2.1]
          simp
        · rw [hmo, hz.2.2.2.2]
          simp
        · intro o ho
          rw [List.mem_append] at ho
          rcases ho with ho | ho
          · exact houts o ho
          · rw [List.mem_singleton] at ho
            rw [ho, hz.2.2.2.2]
      have hr := ih (fun y hy => hin y (by simp [hy])) (sampleFold mode model os resAmt a 0) hinv
      refine ⟨hr.1, ?_, ?_⟩
      · rw [hr.2.1]
        show (sampleStep mode model os resAmt 0 a.dtc).dtc.inputLevel = a.dtc.inputLevel
        exact hpres.2.2.2.1
      · rw [hr.2.2]
        show (sampleStep mode model os resAmt 0 a.dtc).dtc.outputLevel = a.dtc.outputLevel
        exact hpres.2.2.2.2

theorem stepBlock_zero (p : Params) (cvC cvR : Option ℝ) (rate : ℝ) (inputs : List ℝ)
    (dtc : DTC) (hlp : dtc.lp = 0) (hbp : dtc.bp = 0) (hhp : dtc.hp = 0)
    (hin : ∀ x ∈ inputs, x = 0) :
    (∀ o ∈ (stepBlock p cvC cvR rate inputs dtc).2, o = 0) ∧
    (stepBlock p cvC cvR rate inputs dtc).1.lp = 0 ∧
    (stepBlock p cvC cvR rate inputs dtc).1.bp = 0 ∧
    (stepBlock p cvC cvR rate inputs dtc).1.hp = 0 ∧
    (stepBlock p cvC cvR rate inputs dtc).1.inputLevel = dtc.inputLevel * 0.95 ∧
    (stepBlock p cvC cvR rate inputs dtc).1.outputLevel = dtc.outputLevel * 0.95 := by
  have hprep := prepareBlock_preserves p cvC cvR rate dtc
  have hfold := sampleFold_zero_inv p.mode p.model (oversampleOf p)
    ((2 - (prepareBlock p cvC cvR rate dtc).k) / 1.9) inputs hin
    ⟨prepareBlock p cvC cvR rate dtc, [], 0, 0⟩
    ⟨hprep.1.trans hlp, hprep.2.1.trans hbp, hprep.2.2.1.trans hhp, rfl, rfl, by simp⟩
  unfold stepBlock
  dsimp only
  refine ⟨hfold.1.2.2.2.2.2, hfold.1.1, hfold.1.2.1, hfold.1.2.2.1, ?_, ?_⟩
  · rw [hfold.1.2.2.2.1, hfold.2.1]
    dsimp only
    rw [hprep.2.2.2.1]
    ring
  · rw [hfold.1.2.2.2.2.1, hfold.2.2]
    dsimp only
    rw [hprep.2.2.2.2]
    ring

theorem blockFold_zero_inv (p : Params) (cvC cvR : Option ℝ) (rate : ℝ)
    (blocks : List (List ℝ)) (hin : ∀ b ∈ blocks, ∀ x ∈ b, x = 0)
    (a : DTC × List (List ℝ))
    (h : a.1.lp = 0 ∧ a.1.bp = 0 ∧ a.1.hp = 0 ∧ ∀ ob ∈ a.2, ∀ o ∈ ob, o = 0) :
    ((blocks.foldl (blockFold p cvC cvR rate) a).1.lp = 0 ∧
     (blocks.foldl (blockFold p cvC cvR rate) a).1.bp = 0 ∧
     (blocks.foldl (blockFold p cvC cvR rate) a).1.hp = 0 ∧
     ∀ ob ∈ (blocks.foldl (blockFold p cvC cvR rate) a).2, ∀ o ∈ ob, o = 0) ∧
    (blocks.foldl (blockFold p cvC cvR rate) a).1.inputLevel =
      0.95 ^ blocks.length * a.1.inputLevel ∧
    (blocks.foldl (blockFold p cvC cvR rate) a).1.outputLevel =
      0.95 ^ blocks.length * a.1.outputLevel := by
  induction blocks generalizing a with
  | nil =>
      refine ⟨⟨h.1, h.2.1, h.2.2.1, h.2.2.2⟩, ?_, ?_⟩ <;> simp
  | cons b bs ih =>
      obtain ⟨hlp, hbp, hhp, houts⟩ := h
      rw [List.foldl_cons]
      have hstep := stepBlock_zero p cvC cvR rate b a.1 hlp hbp hhp
        (hin b (by simp))
      have hinv : (blockFold p cvC cvR rate a b).1.lp = 0 ∧
          (blockFold p cvC cvR rate a b).1.bp = 0 ∧
          (blockFold p cvC cvR rate a b).1.hp = 0 ∧
          ∀ ob ∈ (blockFold p cvC cvR rate a b).2, ∀ o ∈ ob, o = 0 := by
        unfold blockFold
        refine ⟨hstep.2.1, hstep.2.2.1, hstep.2.2.2.1, ?_⟩
        intro ob hob
        rw [List.mem_append] at hob
        rcases hob with hob | hob
        · exact houts ob hob
        · rw [List.mem_singleton] at hob
          rw [hob]
          exact hstep.1
      have hr := ih (fun c hc => hin c (by simp [hc])) (blockFold p cvC cvR rate a b) hinv
      refine ⟨hr.1, ?_, ?_⟩
      · rw [hr.2.1]
        show 0.95 ^ bs.length * (stepBlock p cvC cvR rate b a.1).1.inputLevel =
          0.95 ^ (b :: bs).length * a.1.inputLevel
        rw [hstep.2.2.2.2.1, List.length_cons, pow_succ]
        ring
      · rw [hr.2.2]
        show 0.95 ^ bs.length * (stepBlock p cvC cvR rate b a.1).1.outputLevel =
          0.95 ^ (b :: bs).length * a.1.outputLevel
        rw [hstep.2.2.2.2.2, List.length_cons, pow_succ]
        ring

/-! ### Claim C4: saturation boundedness -/

/-- C4: the three saturation functions are bounded: `|fastTanh x| ≤ 1` with
output exactly ±1 for `x > 3` resp. `x < -3`; `diodeClip x ∈ (-0.5, 1)`;
and `|aggressiveSat x| ≤ 0.8` (the fold-back keeps the magnitude at or
below 0.8 for every input). -/
theorem c4_saturation_bounded (x : ℝ) :
    |fastTanh x| ≤ 1 ∧ (3 < x → fastTanh x = 1) ∧ (x < -3 → fastTanh x = -1) ∧
    (-0.5 < diodeClip x ∧ diodeClip x < 1) ∧ |aggressiveSat x| ≤ 0.8 :=
  ⟨abs_fastTanh_le_one x, fastTanh_of_gt x, fastTanh_of_lt x,
   ⟨neg_half_lt_diodeClip x, diodeClip_lt_one x⟩, abs_aggressiveSat_le x⟩

/-- Witness for C4 at the concrete inputs x = 4 and x = -4. -/
theorem c4_saturation_bounded_witness :
    fastTanh 4 = 1 ∧ fastTanh (-4) = -1 ∧ |aggressiveSat 4| ≤ 0.8 :=
  ⟨(c4_saturation_bounded 4).2.1 (by norm_num),
   (c4_saturation_bounded (-4)).2.2.1 (by norm_num),
   (c4_saturation_bounded 4).2.2.2.2⟩

/-! ### Claim C5: sanitize idempotence -/

/-- C5: `sanitize` is idempotent on every value (finite, NaN or infinite),
sends NaN and `1e20` to 0, and returns any finite value of magnitude at
most `1e10` unchanged. -/
theorem c5_sanitize_idempotent (v : FVal) (x : ℝ) (h : |x| ≤ 1e10) :
    sanitize (sanitize v) = sanitize v ∧
    sanitize FVal.nan = FVal.fin 0 ∧
    sanitize (FVal.fin 1e20) = FVal.fin 0 ∧
    sanitize (FVal.fin x) = FVal.fin x := by
  have hx := abs_le.mp h
  refine ⟨?_, rfl, ?_, ?_⟩
  · cases v with
    | fin y =>
        simp only [sanitize]
        split_ifs with h1
        · simp only [sanitize]
          norm_num
        · simp only [sanitize]
          rw [if_neg h1]
    | nan =>
        simp only [sanitize]
        norm_num
    | inf =>
        simp only [sanitize]
        norm_num
    | neginf =>
        simp only [sanitize]
        norm_num
  · simp only [sanitize, if_pos (by norm_num : (1e20 : ℝ) > 1e10 ∨ (1e20 : ℝ) < -1e10)]
  · simp only [sanitize]
    rw [if_neg]
    push_neg
    constructor <;> linarith [hx.1, hx.2]

/-- Witness for C5 at the concrete inputs v = +Infinity and x = 3. -/
theorem c5_sanitize_idempotent_witness :
    sanitize (sanitize FVal.inf) = sanitize FVal.inf ∧
    sanitize (FVal.fin 3) = FVal.fin 3 :=
  ⟨(c5_sanitize_idempotent FVal.inf 3 (by norm_num)).1,
   (c5_sanitize_idempotent FVal.inf 3 (by norm_num)).2.2.2⟩

/-! ### Claim C6: AGR continuity at zone boundaries -/

/-- C6: the AGR gain hits its anchor values for every random state:
`processAGR 25` takes the randomization branch yet returns exactly 0.5 (the
random mix is zero there), agreeing with the attenuation-side formula
`0.5 + ((25-25)/25)·0.5`; `processAGR 50` returns 1; `processAGR 100`
returns 4. -/
theorem c6_agr_zone_boundaries (s : ℕ) :
    (processAGR 25 s).1 = 0.5 ∧
    (processAGR 25 s).1 = 0.5 + (((25 : ℚ) - 25) / 25) * 0.5 ∧
    (processAGR 50 s).1 = 1 ∧
    (processAGR 100 s).1 = 4 := by
  unfold processAGR
  norm_num

/-! ### Claim C3: filter coefficient bounds -/

/-- C3: for every cutoff in [20 Hz, 0.45·rate] and resonance in [0,1], the
coefficients computed by `calculateFilterCoeffs` satisfy `g ≥ 0`,
`k ∈ [0.1, 2.0]`, and `gInv = 1/(1+g(g+k)) > 0` (the denominator is at
least 1, so the quotient is well defined and finite). -/
theorem c3_coefficient_bounds (cutoff resonance sampleRate : ℝ)
    (hrate : 0 < sampleRate) (hc1 : 20 ≤ cutoff) (hc2 : cutoff ≤ 0.45 * sampleRate)
    (hr1 : 0 ≤ resonance) (hr2 : resonance ≤ 1) :
    0 ≤ (calculateFilterCoeffs cutoff resonance sampleRate).g ∧
    0.1 ≤ (calculateFilterCoeffs cutoff resonance sampleRate).k ∧
    (calculateFilterCoeffs cutoff resonance sampleRate).k ≤ 2 ∧
    0 < (calculateFilterCoeffs cutoff resonance sampleRate).gInv := by
  unfold calculateFilterCoeffs
  dsimp only
  rw [if_neg (by linarith : ¬ cutoff < 20), if_neg (by linarith : ¬ cutoff > sampleRate * 0.45)]
  have hg : 0 ≤ Real.tan (Real.pi * cutoff / sampleRate) := by
    apply Real.tan_nonneg_of_nonneg_of_le_pi_div_two
    · positivity
    · rw [div_le_div_iff₀ hrate (by norm_num : (0 : ℝ) < 2)]
      nlinarith [Real.pi_pos, mul_nonneg (le_of_lt Real.pi_pos)
        (show (0 : ℝ) ≤ sampleRate - 2 * cutoff by linarith)]
  refine ⟨hg, by linarith, by linarith, ?_⟩
  have hd : 0 < 1 + Real.tan (Real.pi * cutoff / sampleRate) *
      (Real.tan (Real.pi * cutoff / sampleRate) + (2 - resonance * 1.9)) := by
    nlinarith [mul_nonneg hg (show 0 ≤ Real.tan (Real.pi * cutoff / sampleRate) +
      (2 - resonance * 1.9) by linarith)]
  exact one_div_pos.mpr hd

/-- Witness for C3 at cutoff 1000 Hz, resonance 0.5, rate 96000 Hz. -/
theorem c3_coefficient_bounds_witness :
    0 ≤ (calculateFilterCoeffs 1000 0.5 96000).g ∧
    0 < (calculateFilterCoeffs 1000 0.5 96000).gInv := by
  have h := c3_coefficient_bounds 1000 0.5 96000 (by norm_num) (by norm_num)
    (by norm_num) (by norm_num) (by norm_num)
  exact ⟨h.1, h.2.2.2⟩

/-! ### Xorshift generator: nonzero preservation and range -/

theorem xor_shl_ne_zero (k x : ℕ) (hk : 1 ≤ k) (hx32 : x < 2 ^ 32) (hx : x ≠ 0) :
    x ^^^ ((x <<< k) % 2 ^ 32) ≠ 0 := by
  have hex : ∃ i, x.testBit i = true := Nat.ne_zero_implies_bit_true hx
  have hjbit : x.testBit (Nat.find hex) = true := Nat.find_spec hex
  have hjmin : ∀ m, m < Nat.find hex → ¬ x.testBit m = true := fun m hm => Nat.find_min hex hm
  intro h0
  have hb : (x ^^^ ((x <<< k) % 2 ^ 32)).testBit (Nat.find hex) = false := by
    rw [h0]
    exact Nat.zero_testBit _
  rw [Nat.testBit_xor, Nat.testBit_mod_two_pow, Nat.testBit_shiftLeft] at hb
  have hj32 : Nat.find hex < 32 := by
    by_contra hge
    push_neg at hge
    have hf : x.testBit (Nat.find hex) = false :=
      Nat.testBit_lt_two_pow (lt_of_lt_of_le hx32 (Nat.pow_le_pow_right (by norm_num) hge))
    rw [hf] at hjbit
    exact Bool.false_ne_true hjbit
  have hshift : (decide (Nat.find hex ≥ k) && x.testBit (Nat.find hex - k)) = false := by
    by_cases hkj : k ≤ Nat.find hex
    · have hlt : Nat.find hex - k < Nat.find hex :=
        Nat.sub_lt (lt_of_lt_of_le hk hkj) hk
      have hf : x.testBit (Nat.find hex - k) = false :=
        Bool.eq_false_iff.mpr (hjmin _ hlt)
      simp [hf]
    · simp [hkj]
  rw [hjbit, hshift] at hb
  simp [hj32] at hb

theorem xor_shr_ne_zero (k x : ℕ) (hk : 1 ≤ k) (hx : x ≠ 0) :
    x ^^^ (x >>> k) ≠ 0 := by
  have h1 : 2 ^ Nat.log2 x ≤ x := Nat.log2_self_le hx
  have h2 : x < 2 ^ (Nat.log2 x + 1) := Nat.lt_log2_self
  have hbit : x.testBit (Nat.log2 x) = true := by
    rw [Nat.testBit_to_div_mod]
    have hq : x / 2 ^ Nat.log2 x = 1 := by
      apply Nat.div_eq_of_lt_le
      · simpa using h1
      · rw [pow_succ] at h2
        omega
    simp [hq]
  intro h0
  have hb : (x ^^^ (x >>> k)).testBit (Nat.log2 x) = false := by
    rw [h0]
    exact Nat.zero_testBit _
  rw [Nat.testBit_xor, Nat.testBit_shiftRight] at hb
  have hhigh : x.testBit (k + Nat.log2 x) = false := by
    apply Nat.testBit_lt_two_pow
    exact lt_of_lt_of_le h2 (Nat.pow_le_pow_right (by norm_num) (by omega))
  rw [hbit, hhigh] at hb
  simp at hb

theorem xorshiftStep_lt (s : ℕ) (h : s < 2 ^ 32) : xorshiftStep s < 2 ^ 32 := by
  unfold xorshiftStep
  apply Nat.xor_lt_two_pow
  · apply Nat.xor_lt_two_pow
    · exact Nat.xor_lt_two_pow h (Nat.mod_lt _ (by norm_num))
    · rw [Nat.shiftRight_eq_div_pow]
      exact lt_of_le_of_lt (Nat.div_le_self _ _)
        (Nat.xor_lt_two_pow h (Nat.mod_lt _ (by norm_num)))
  · exact Nat.mod_lt _ (by norm_num)

theorem xorshiftStep_ne_zero (s : ℕ) (h32 : s < 2 ^ 32) (h : s ≠ 0) :
    xorshiftStep s ≠ 0 := by
  unfold xorshiftStep
  have ha32 : s ^^^ ((s <<< 13) % 2 ^ 32) < 2 ^ 32 :=
    Nat.xor_lt_two_pow h32 (Nat.mod_lt _ (by norm_num))
  have haz : s ^^^ ((s <<< 13) % 2 ^ 32) ≠ 0 := xor_shl_ne_zero 13 s (by norm_num) h32 h
  have hb32 : (s ^^^ ((s <<< 13) % 2 ^ 32)) ^^^ ((s ^^^ ((s <<< 13) % 2 ^ 32)) >>> 17) < 2 ^ 32 := by
    apply Nat.xor_lt_two_pow ha32
    rw [Nat.shiftRight_eq_div_pow]
    exact lt_of_le_of_lt (Nat.div_le_self _ _) ha32
  have hbz : (s ^^^ ((s <<< 13) % 2 ^ 32)) ^^^ ((s ^^^ ((s <<< 13) % 2 ^ 32)) >>> 17) ≠ 0 :=
    xor_shr_ne_zero 17 _ (by norm_num) haz
  exact xor_shl_ne_zero 5 _ (by norm_num) hb32 hbz

theorem randStateIter_invariant (n : ℕ) :
    randStateIter n ≠ 0 ∧ randStateIter n < 2 ^ 32 := by
  induction n with
  | zero => exact ⟨by norm_num [randStateIter], by norm_num [randStateIter]⟩
  | succ m ih =>
      exact ⟨xorshiftStep_ne_zero _ ih.2 ih.1, xorshiftStep_lt _ ih.2⟩

theorem fastRandom_mem_unit (s : ℕ) :
    0 ≤ (fastRandom s).1 ∧ (fastRandom s).1 ≤ 1 := by
  unfold fastRandom
  constructor
  · positivity
  · rw [div_le_one (by norm_num : (0 : ℚ) < 0x7FFFFFFF)]
    have h := Nat.and_le_right (n := xorshiftStep s) (m := 0x7FFFFFFF)
    exact_mod_cast h

/-! ### Claim C7: silence scenario -/

/-- C7: starting from a filter state with `lp = bp = hp = 0` (as left by the
zero-initialization in `construct`), for all-zero input blocks, any
parameter settings, any CV configuration and any number of blocks, every
produced output sample is exactly 0, the filter state stays exactly 0, and
`inputLevel`/`outputLevel` are each multiplied by exactly 0.95 per block
(the block peak contribution being zero), decaying toward 0. -/
theorem c7_silence (p : Params) (cvC cvR : Option ℝ) (rate : ℝ)
    (blocks : List (List ℝ)) (dtc : DTC)
    (hlp : dtc.lp = 0) (hbp : dtc.bp = 0) (hhp : dtc.hp = 0)
    (hin : ∀ b ∈ blocks, ∀ x ∈ b, x = 0) :
    (∀ ob ∈ (runBlocks p cvC cvR rate blocks dtc).2, ∀ o ∈ ob, o = 0) ∧
    (runBlocks p cvC cvR rate blocks dtc).1.lp = 0 ∧
    (runBlocks p cvC cvR rate blocks dtc).1.bp = 0 ∧
    (runBlocks p cvC cvR rate blocks dtc).1.hp = 0 ∧
    (runBlocks p cvC cvR rate blocks dtc).1.inputLevel =
      0.95 ^ blocks.length * dtc.inputLevel ∧
    (runBlocks p cvC cvR rate blocks dtc).1.outputLevel =
      0.95 ^ blocks.length * dtc.outputLevel := by
  have h := blockFold_zero_inv p cvC cvR rate blocks hin (dtc, [])
    ⟨hlp, hbp, hhp, by simp⟩
  exact ⟨h.1.2.2.2, h.1.1, h.1.2.1, h.1.2.2.1, h.2.1, h.2.2⟩

/-- Witness for C7: two all-zero blocks at default-like parameters from the
zero state. -/
theorem c7_silence_witness :
    (∀ ob ∈ (runBlocks ⟨1000, 0, 0, 0, 1000, 1000, 500, 0, 1⟩ none none 48000
        [[0, 0], [0, 0]] DTC.zero).2, ∀ o ∈ ob, o = 0) ∧
    (runBlocks ⟨1000, 0, 0, 0, 1000, 1000, 500, 0, 1⟩ none none 48000
        [[0, 0], [0, 0]] DTC.zero).1.lp = 0 :=
  ⟨(c7_silence ⟨1000, 0, 0, 0, 1000, 1000, 500, 0, 1⟩ none none 48000 [[0, 0], [0, 0]]
      DTC.zero rfl rfl rfl (by simp)).1,
   (c7_silence ⟨1000, 0, 0, 0, 1000, 1000, 500, 0, 1⟩ none none 48000 [[0, 0], [0, 0]]
      DTC.zero rfl rfl rfl (by simp)).2.1⟩

/-! ### Claim C8: coefficients constant within a block -/

/-- C8: within one invocation of `step`, the coefficients `g`, `k`, `gInv`
are computed exactly once before the per-sample loop — by
`calculateFilterCoeffs` from the block's smoothed cutoff/resonance and the
oversampled rate — and no iteration of the per-sample loop or of the inner
oversampling loop ever modifies them, so the state after the block carries
exactly the coefficients computed at its head. -/
theorem c8_coeffs_constant_per_block (p : Params) (cvC cvR : Option ℝ) (rate : ℝ)
    (inputs : List ℝ) (dtc : DTC) :
    ((prepareBlock p cvC cvR rate dtc).g =
        (calculateFilterCoeffs (prepareBlock p cvC cvR rate dtc).cutoffSmooth
          (prepareBlock p cvC cvR rate dtc).resonanceSmooth
          (rate * (oversampleOf p : ℝ))).g ∧
      (prepareBlock p cvC cvR rate dtc).k =
        (calculateFilterCoeffs (prepareBlock p cvC cvR rate dtc).cutoffSmooth
          (prepareBlock p cvC cvR rate dtc).resonanceSmooth
          (rate * (oversampleOf p : ℝ))).k ∧
      (prepareBlock p cvC cvR rate dtc).gInv =
        (calculateFilterCoeffs (prepareBlock p cvC cvR rate dtc).cutoffSmooth
          (prepareBlock p cvC cvR rate dtc).resonanceSmooth
          (rate * (oversampleOf p : ℝ))).gInv) ∧
    (∀ (model mode : ℤ) (resAmt input : ℝ) (d : DTC),
      (osStep model mode resAmt input d).1.g = d.g ∧
      (osStep model mode resAmt input d).1.k = d.k ∧
      (osStep model mode resAmt input d).1.gInv = d.gInv) ∧
    (∀ (mode model : ℤ) (os : ℕ) (resAmt x : ℝ) (d : DTC),
      (sampleStep mode model os resAmt x d).dtc.g = d.g ∧
      (sampleStep mode model os resAmt x d).dtc.k = d.k ∧
      (sampleStep mode model os resAmt x d).dtc.gInv = d.gInv) ∧
    ((stepBlock p cvC cvR rate inputs dtc).1.g = (prepareBlock p cvC cvR rate dtc).g ∧
     (stepBlock p cvC cvR rate inputs dtc).1.k = (prepareBlock p cvC cvR rate dtc).k ∧
     (stepBlock p cvC cvR rate inputs dtc).1.gInv = (prepareBlock p cvC cvR rate dtc).gInv) := by
  refine ⟨⟨rfl, rfl, rfl⟩, ?_, ?_, ?_⟩
  · intro model mode resAmt input d
    have h := osStep_preserves model mode resAmt input d
    exact ⟨h.1, h.2.1, h.2.2.1⟩
  · intro mode model os resAmt x d
    have h := sampleStep_preserves mode model os resAmt x d
    exact ⟨h.1, h.2.1, h.2.2.1⟩
  · have hfold : ∀ (xs : List ℝ) (a : BlockAcc),
        (xs.foldl (sampleFold p.mode p.model (oversampleOf p)
          ((2 - (prepareBlock p cvC cvR rate dtc).k) / 1.9)) a).dtc.g = a.dtc.g ∧
        (xs.foldl (sampleFold p.mode p.model (oversampleOf p)
          ((2 - (prepareBlock p cvC cvR rate dtc).k) / 1.9)) a).dtc.k = a.dtc.k ∧
        (xs.foldl (sampleFold p.mode p.model (oversampleOf p)
          ((2 - (prepareBlock p cvC cvR rate dtc).k) / 1.9)) a).dtc.gInv = a.dtc.gInv := by
      intro xs
      induction xs with
      | nil => exact fun a => ⟨rfl, rfl, rfl⟩
      | cons x xs ih =>
          intro a
          rw [List.foldl_cons]
          have hs := sampleStep_preserves p.mode p.model (oversampleOf p)
            ((2 - (prepareBlock p cvC cvR rate dtc).k) / 1.9) x a.dtc
          have h2 := ih (sampleFold p.mode p.model (oversampleOf p)
            ((2 - (prepareBlock p cvC cvR rate dtc).k) / 1.9) a x)
          exact ⟨h2.1.trans hs.1, h2.2.1.trans hs.2.1, h2.2.2.trans hs.2.2.1⟩
    have h := hfold inputs ⟨prepareBlock p cvC cvR rate dtc, [], 0, 0⟩
    exact ⟨h.1, h.2.1, h.2.2⟩

/-! ### Claim C1: output boundedness -/

/-- C1: for every input sample, every mode in {0,1,2,3}, every model in
{0,1,2}, every oversample factor in {1,2,4,8,16} and every filter state,
the output sample produced by one iteration of the per-sample loop of
`step` is bounded in magnitude by 1.2 (the final output-stage saturation in
fact bounds it by 1); in this exact-real embedding the value is a real
number, hence neither NaN nor Infinity. -/
theorem c1_output_bounded (mode model : ℤ) (oversample : ℕ) (resAmt inSample : ℝ)
    (dtc : DTC)
    (hmode : 0 ≤ mode ∧ mode ≤ 3) (hmodel : 0 ≤ model ∧ model ≤ 2)
    (hos : oversample = 1 ∨ oversample = 2 ∨ oversample = 4 ∨ oversample = 8 ∨
      oversample = 16) :
    |(sampleStep mode model oversample resAmt inSample dtc).output| ≤ 1.2 := by
  have h : (sampleStep mode model oversample resAmt inSample dtc).output =
      outputSat model (sanitizeR
        ((osLoop model mode resAmt
            (inSample * ((processAGR (truncToInt dtc.agrSmooth) dtc.randState).1 : ℝ) *
              dtc.driveSmooth) oversample
            { dtc with randState := (processAGR (truncToInt dtc.agrSmooth) dtc.randState).2 }).2 /
          (oversample : ℝ))) := rfl
  rw [h]
  have hb := abs_outputSat_le_one model (sanitizeR
    ((osLoop model mode resAmt
        (inSample * ((processAGR (truncToInt dtc.agrSmooth) dtc.randState).1 : ℝ) *
          dtc.driveSmooth) oversample
        { dtc with randState := (processAGR (truncToInt dtc.agrSmooth) dtc.randState).2 }).2 /
      (oversample : ℝ)))
  linarith

/-- Witness for C1 at mode 0, model 0, oversample 1, zero input, zero
state. -/
theorem c1_output_bounded_witness :
    |(sampleStep 0 0 1 0 0 DTC.zero).output| ≤ 1.2 :=
  c1_output_bounded 0 0 1 0 0 DTC.zero (by norm_num) (by norm_num) (Or.inl rfl)

/-! ### Claim C2: fallback behaviour for out-of-range selectors -/

theorem osLoop_one (model mode : ℤ) (resAmt input : ℝ) (dtc : DTC) :
    osLoop model mode resAmt input 1 dtc =
      ((osStep model mode resAmt input dtc).1, (osStep model mode resAmt input dtc).2 + 0) :=
  rfl

theorem osLoop_unknown_mode (model mode : ℤ) (resAmt input : ℝ) (n : ℕ) (dtc : DTC)
    (h0 : mode ≠ 0) (h1 : mode ≠ 1) (h2 : mode ≠ 2) (h3 : mode ≠ 3) :
    (osLoop model mode resAmt input n dtc).2 = 0 := by
  induction n generalizing dtc with
  | zero => rfl
  | succ m ih =>
      unfold osLoop
      dsimp only
      rw [ih]
      have hc : (osStep model mode resAmt input dtc).2 = 0 := by
        unfold osStep
        dsimp only
        rw [if_neg h0, if_neg h1, if_neg h2, if_neg h3]
      rw [hc]
      ring

/-- C2 counterexample: with state lp = 1 (k = 1, gInv = 1, all else 0) and
zero input, the lowpass mode (0) produces `fastTanh 1 = 7/9` while the
out-of-range mode 4 produces 0 — an unknown mode does NOT produce the
lowpass output, contrary to the claim: the mode switch has no default case,
so nothing is accumulated. -/
theorem c2_unknown_mode_counterexample :
    (sampleStep 4 0 1 0 0 ⟨1, 0, 0, 0, 1, 1, 0, 0, 0, 0, 0, 0, 0, 0, 0⟩).output ≠
    (sampleStep 0 0 1 0 0 ⟨1, 0, 0, 0, 1, 1, 0, 0, 0, 0, 0, 0, 0, 0, 0⟩).output := by
  have e4 : (sampleStep 4 0 1 0 0 ⟨1, 0, 0, 0, 1, 1, 0, 0, 0, 0, 0, 0, 0, 0, 0⟩).output = 0 := by
    unfold sampleStep
    dsimp only
    rw [osLoop_unknown_mode 0 4 _ _ 1 _ (by norm_num) (by norm_num) (by norm_num) (by norm_num),
      zero_div, sanitizeR_zero, outputSat_zero]
  have e0 : (sampleStep 0 0 1 0 0 ⟨1, 0, 0, 0, 1, 1, 0, 0, 0, 0, 0, 0, 0, 0, 0⟩).output
      = 7 / 9 := by
    norm_num [sampleStep, osLoop_one, osStep, inputSat, outputSat, fastTanh, softClamp,
      sanitizeR]
  rw [e4, e0]
  norm_num

/-- C2 amended: an unknown model selector falls back to the YU-equivalent
`fastTanh` in both the pre-filter stage (at unit drive, ignoring the
resonance scaling) and the output stage; an unknown mode selector matches no
case of the accumulation switch, so the produced output sample is 0 (the
zero accumulator passed through the output saturation), not the lowpass
output. -/
theorem c2_amended_fallback (mode model : ℤ) (oversample : ℕ) (resAmt input x : ℝ)
    (dtc : DTC) :
    (model ≠ 0 → model ≠ 1 → model ≠ 2 →
      inputSat model resAmt input = fastTanh input ∧ outputSat model x = fastTanh x) ∧
    (mode ≠ 0 → mode ≠ 1 → mode ≠ 2 → mode ≠ 3 →
      (sampleStep mode model oversample resAmt input dtc).output = 0) := by
  constructor
  · intro h0 h1 h2
    constructor
    · unfold inputSat
      rw [if_neg h0, if_neg h1, if_neg h2]
    · unfold outputSat
      rw [if_neg h0, if_neg h1, if_neg h2]
  · intro h0 h1 h2 h3
    unfold sampleStep
    dsimp only
    rw [osLoop_unknown_mode model mode _ _ oversample _ h0 h1 h2 h3,
      zero_div, sanitizeR_zero, outputSat_zero]

/-- Witness for the amended C2 at model 7 and mode 9. -/
theorem c2_amended_fallback_witness :
    inputSat 7 0.5 0.25 = fastTanh 0.25 ∧
    (sampleStep 9 1 2 0 0.5 DTC.zero).output = 0 :=
  ⟨((c2_amended_fallback 9 7 2 0.5 0.25 0.3 DTC.zero).1
      (by norm_num) (by norm_num) (by norm_num)).1,
   (c2_amended_fallback 9 1 2 0 0.5 0 DTC.zero).2
      (by norm_num) (by norm_num) (by norm_num) (by norm_num)⟩

/-! ### Claim C10: xorshift never reaches the zero fixed point -/

/-- C10: the xorshift update maps every non-zero 32-bit state to a non-zero
32-bit state; consequently, starting from the construction seed
`0x12345678`, the state is non-zero before and after every call; and every
value returned by `fastRandom` lies in [0, 1]. -/
theorem c10_xorshift_nonzero (s n : ℕ) (h32 : s < 2 ^ 32) (hnz : s ≠ 0) :
    (xorshiftStep s ≠ 0 ∧ xorshiftStep s < 2 ^ 32) ∧
    randStateIter n ≠ 0 ∧
    (0 ≤ (fastRandom s).1 ∧ (fastRandom s).1 ≤ 1) :=
  ⟨⟨xorshiftStep_ne_zero s h32 hnz, xorshiftStep_lt s h32⟩,
   (randStateIter_invariant n).1, fastRandom_mem_unit s⟩

/-- Witness for C10 at the concrete seed `0x12345678` and n = 3. -/
theorem c10_xorshift_nonzero_witness :
    xorshiftStep 0x12345678 ≠ 0 ∧ randStateIter 3 ≠ 0 :=
  ⟨(c10_xorshift_nonzero 0x12345678 3 (by norm_num) (by norm_num)).1.1,
   (c10_xorshift_nonzero 0x12345678 3 (by norm_num) (by norm_num)).2.1⟩

/-! ### Claim C9: determinism of the randomizer -/

/-- C9: two runs from the same seed with the same inputs produce the same
AGR gain sequence, and two runs of the whole per-block pipeline from equal
states with equal inputs and parameters produce identical outputs —
`fastRandom` and `processAGR` are deterministic functions of the state they
are given, and the embedding of `step` has no other source of
nondeterminism. -/
theorem c9_randomizer_deterministic (a : ℤ) (n : ℕ) (s1 s2 : ℕ)
    (p : Params) (cvCutoff cvRes : Option ℝ) (sampleRate : ℝ)
    (blocks : List (List ℝ)) (d1 d2 : DTC)
    (hs : s1 = s2) (hd : d1 = d2) :
    agrRun a n s1 = agrRun a n s2 ∧
    runBlocks p cvCutoff cvRes sampleRate blocks d1 =
      runBlocks p cvCutoff cvRes sampleRate blocks d2 := by
  subst hs
  subst hd
  exact ⟨rfl, rfl⟩

/-- Witness for C9 at the concrete seed `0x12345678` and a concrete state. -/
theorem c9_randomizer_deterministic_witness :
    agrRun 0 4 0x12345678 = agrRun 0 4 0x12345678 ∧
    runBlocks ⟨1000, 0, 0, 0, 1000, 1000, 500, 0, 1⟩ none none 48000 [[0]] DTC.zero =
      runBlocks ⟨1000, 0, 0, 0, 1000, 1000, 500, 0, 1⟩ none none 48000 [[0]] DTC.zero :=
  c9_randomizer_deterministic 0 4 0x12345678 0x12345678
    ⟨1000, 0, 0, 0, 1000, 1000, 500, 0, 1⟩ none none 48000 [[0]] DTC.zero DTC.zero rfl rfl

end Tangents
